import Mathlib

/-!
Shallow embedding of the `zabbix-go` client library (package `zabbix`):
the Zabbix Sender binary codec, the JSON-RPC API client with
version-dependent authentication, and the Zabbix Get agent client.
Machine integers are modelled as `Nat`/`Int` with explicit wrapping
where overflow matters; byte slices are `List Nat` (each element a byte
value); fallible Go functions return `Except`.  Go strings are
modelled as `String`; the byte-level operations `strings.Split`,
`strings.HasPrefix` and `strings.TrimRight` are modelled on
`String.data` (`List Char`), which agrees with Go's byte-wise behaviour
on the protocol's ASCII strings.

Definitions come first, theorems follow.
-/

/-! ## Definitions: Sender codec, `BuildPacket` (part_000, lines 156-167) -/

/-- The 5-byte header `"ZBXD\x01"` (`header := []byte("ZBXD\x01")`). -/
def zbxHeader : List Nat := [0x5A, 0x42, 0x58, 0x44, 0x01]

/-- `binary.LittleEndian.PutUint64 length (uint64(len(data)))`: the 8
little-endian bytes of `n` truncated to 64 bits. -/
def putUint64LE (n : Nat) : List Nat :=
  [n % 256, n / 256 % 256, n / 256 ^ 2 % 256, n / 256 ^ 3 % 256,
   n / 256 ^ 4 % 256, n / 256 ^ 5 % 256, n / 256 ^ 6 % 256, n / 256 ^ 7 % 256]

/-- The little-endian decoding of 8 bytes, as done on the read side by
`binary.Read(bytes.NewReader(header[5:13]), binary.LittleEndian, &dataLen)`. -/
def decodeUint64LE (b : List Nat) : Nat :=
  match b with
  | [b0, b1, b2, b3, b4, b5, b6, b7] =>
      b0 + b1 * 256 + b2 * 256 ^ 2 + b3 * 256 ^ 3 +
      b4 * 256 ^ 4 + b5 * 256 ^ 5 + b6 * 256 ^ 6 + b7 * 256 ^ 7
  | _ => 0

/-- `func (s *Sender) BuildPacket(data []byte) []byte`:
header, then the 8 little-endian length bytes, then the payload. -/
def BuildPacket (data : List Nat) : List Nat :=
  zbxHeader ++ putUint64LE data.length ++ data

/-! ## Definitions: version parsing (base.go, `Version`, lines 431-464) -/

/-- `strings.Split(s, sep)` for a one-character separator, accumulator form. -/
def splitOnCharAux (sep : Char) : List Char → List Char → List (List Char)
  | [], acc => [acc.reverse]
  | c :: cs, acc =>
      if c = sep then acc.reverse :: splitOnCharAux sep cs []
      else splitOnCharAux sep cs (c :: acc)

/-- `strings.Split(s, sep)` for a one-character separator. -/
def goSplit (sep : Char) (s : List Char) : List (List Char) :=
  splitOnCharAux sep s []

/-- The numeric value of an ASCII digit, `none` otherwise. -/
def digitVal (c : Char) : Option Nat :=
  if '0' ≤ c ∧ c ≤ '9' then some (c.toNat - '0'.toNat) else none

def parseDigitsAux : List Char → Nat → Option Nat
  | [], acc => some acc
  | c :: cs, acc =>
      match digitVal c with
      | some d => parseDigitsAux cs (acc * 10 + d)
      | none => none

/-- The value of a non-empty all-digit string, `none` on a syntax error. -/
def parseDigits : List Char → Option Nat
  | [] => none
  | cs => parseDigitsAux cs 0

/-- `strconv.ParseInt(s, 10, 64)` with the error discarded (`_`), as the
source does: optional sign, base-10 digits, result clamped to the int64
range on overflow, and 0 on a syntax error. -/
def goParseInt64 (s : List Char) : Int :=
  let signed : Bool × List Char :=
    match s with
    | '+' :: rest => (false, rest)
    | '-' :: rest => (true, rest)
    | rest => (false, rest)
  match parseDigits signed.2 with
  | none => 0
  | some n =>
      if signed.1 then
        if 2 ^ 63 < n then -(2 ^ 63) else -(n : Int)
      else
        if 2 ^ 63 ≤ n then 2 ^ 63 - 1 else (n : Int)

/-- `VersionInfo` (base.go, lines 220-227): parsed version plus the two
cached authentication-mode flags. -/
structure VersionInfo where
  Version : String
  Major : Int
  Minor : Int
  Patch : Int
  UseBearer : Bool
  UseUsername : Bool
deriving Repr, DecidableEq

/-- The parsing-and-flag-computation part of `func (api *API) Version()`
(base.go, lines 440-461): split the version string on dots, fail when
fewer than two components are present, parse major/minor/patch (patch
defaults to 0), compute `UseBearer` and `UseUsername`.  Total — a
single-component string takes the error branch, it never indexes out of
range (no panic). -/
def parseVersion (v : String) : Except String VersionInfo :=
  match goSplit '.' v.data with
  | a :: b :: rest =>
      let major := goParseInt64 a
      let minor := goParseInt64 b
      let patch : Int :=
        match rest with
        | c :: _ => goParseInt64 c
        | [] => 0
      .ok { Version := v, Major := major, Minor := minor, Patch := patch,
            UseBearer := decide (7 < major ∨ (major = 7 ∧ 2 ≤ minor)),
            UseUsername := decide (6 < major ∨ (major = 6 ∧ 4 ≤ minor)) }
  | _ => .error ("invalid version format: " ++ v)

/-! ## Definitions: RPC client, `Call` and `CallWithError` (base.go,
lines 380-397) -/

/-- `type Error struct { Code int; Message string; Data string }`
(base.go, lines 244-248). -/
structure RpcError where
  Code : Int
  Message : String
  Data : String
deriving Repr, DecidableEq

/-- `func (e *Error) Error() string`: `fmt.Sprintf("%d (%s): %s", ...)`
(base.go, lines 250-252). -/
def RpcError.render (e : RpcError) : String :=
  toString e.Code ++ " (" ++ e.Message ++ "): " ++ e.Data

/-- `type Response struct` (base.go, lines 237-242); `Result` is kept as
the string payload the library reads out of it. -/
structure Response where
  Jsonrpc : String
  Error : Option RpcError
  Result : String
  Id : Int
deriving Repr, DecidableEq

/-- The zero value of `Response`, left behind when `callBytes` or
`json.Unmarshal` fails. -/
def Response.zero : Response := ⟨"", none, "", 0⟩

/-- The two disjoint error classes of the client: transport/local errors
and remote-procedure errors (a populated `response.Error`). -/
inductive CallErr
  | transport (msg : String)
  | api (e : RpcError)
deriving Repr, DecidableEq

/-- `func (api *API) Call(method, params)` (base.go, lines 382-388),
parametrised by the combined outcome of `callBytes` + `json.Unmarshal`
(`.error m` = either failed with message `m`, `.ok r` = the body
unmarshalled to `r`).  `err` is only ever that transport outcome; the
`Error` field of the decoded response is never promoted. -/
def Call (transportOut : Except String Response) : Response × Option String :=
  match transportOut with
  | .error m => (Response.zero, some m)
  | .ok r => (r, none)

/-- `func (api *API) CallWithError(method, params)` (base.go, lines
391-397): runs `Call`; if it returned no error and `response.Error` is
non-nil, that becomes the error value. -/
def CallWithError (transportOut : Except String Response) :
    Response × Option CallErr :=
  let c := Call transportOut
  match c.2 with
  | some m => (c.1, some (.transport m))
  | none =>
      match c.1.Error with
      | some e => (c.1, some (.api e))
      | none => (c.1, none)

/-! ## Definitions: RPC client, `callBytes` and the request id (base.go,
lines 300-378)

The network send itself is abstracted: `callBytes` is modelled up to the
requests it builds (envelope auth field, `Authorization` header, id) and
the state it leaves behind; the server's answer to the version query is
an oracle parameter. -/

/-- `atomic.AddInt32` wraps around in int32 two's-complement
arithmetic: `int32wrap n` is `n` reduced to `[-2^31, 2^31)`. -/
def int32wrap (n : Int) : Int := (n + 2147483648) % 4294967296 - 2147483648

/-- `id := atomic.AddInt32(&api.id, 1)` (base.go, line 313). -/
def nextId (id : Int) : Int := int32wrap (id + 1)

/-- The request id obtained by the k-th `callBytes` invocation on one
client instance (`api.id` starts at Go's zero value 0). -/
def idOfCall : Nat → Int
  | 0 => 0
  | k + 1 => nextId (idOfCall k)

/-- The mutable per-instance state of `API` that `callBytes` touches:
the auth token, the id counter and the cached version descriptor. -/
structure ApiState where
  Auth : String
  id : Int
  versionInfo : Option VersionInfo
deriving Repr, DecidableEq

/-- What `callBytes` puts on the wire for one request: the envelope's
`auth` field (`""` is omitted by `json:"auth,omitempty"`), the
`Authorization` header if added, and the id. -/
structure BuiltRequest where
  method : String
  envelopeAuth : String
  bearerHeader : Option String
  id : Int
deriving Repr, DecidableEq

/-- The request-building part of `callBytes` (base.go, lines 314-362):
with `useBearer` the envelope has no auth field; otherwise the auth
field is the token except for `"APIInfo.version"`; the
`Authorization: Bearer` header is added iff
`useBearer && method != "APIInfo.version" && api.Auth != ""`. -/
def buildRequest (method : String) (useBearer : Bool) (apiAuth : String)
    (id : Int) : BuiltRequest :=
  { method := method
    envelopeAuth :=
      if useBearer then ""
      else if method = "APIInfo.version" then "" else apiAuth
    bearerHeader :=
      if useBearer ∧ method ≠ "APIInfo.version" ∧ apiAuth ≠ "" then
        some ("Bearer " ++ apiAuth)
      else none
    id := id }

/-- One `callBytes` invocation after the version-detection guard:
increment the id and build the request. -/
def callBytesNoDetect (st : ApiState) (method : String) (useBearer : Bool) :
    ApiState × BuiltRequest :=
  let id := nextId st.id
  ({ st with id := id }, buildRequest method useBearer st.Auth id)

/-- `func (api *API) Version()` (base.go, lines 431-464) as a state step:
it issues `"APIInfo.version"` through `CallWithError` (hence through
`callBytes`, whose version branch never recurses into detection), then
parses the returned version string and caches the descriptor;
`serverResult` is the oracle for what `CallWithError` yields. -/
def VersionStep (st : ApiState) (serverResult : Except CallErr String) :
    ApiState × List BuiltRequest × Except CallErr VersionInfo :=
  let sr := callBytesNoDetect st "APIInfo.version" false
  match serverResult with
  | .error e => (sr.1, [sr.2], .error e)
  | .ok v =>
      match parseVersion v with
      | .error m => (sr.1, [sr.2], .error (.transport m))
      | .ok info => ({ sr.1 with versionInfo := some info }, [sr.2], .ok info)

/-- The observable outcome of one `callBytes` invocation: the state left
behind, every request sent (in order), whether the automatic version
detection ran, and an early error if one aborted the call. -/
structure CallBytesOut where
  state : ApiState
  sent : List BuiltRequest
  detectionRan : Bool
  err : Option CallErr
deriving Repr, DecidableEq

/-- `func (api *API) callBytes(method, params)` (base.go, lines 300-378):
for `"APIInfo.version"` the detection guard is skipped and `useBearer`
stays false; for any other method, a nil cached descriptor first runs
`Version()` (aborting on its failure), then the request is built with
the cached `UseBearer`. -/
def callBytes (st : ApiState) (method : String)
    (versionServer : Except CallErr String) : CallBytesOut :=
  if method = "APIInfo.version" then
    let sr := callBytesNoDetect st method false
    ⟨sr.1, [sr.2], false, none⟩
  else
    match st.versionInfo with
    | some info =>
        let sr := callBytesNoDetect st method info.UseBearer
        ⟨sr.1, [sr.2], false, none⟩
    | none =>
        match VersionStep st versionServer with
        | (st1, reqs, .error e) => ⟨st1, reqs, true, some e⟩
        | (st1, reqs, .ok info) =>
            let sr := callBytesNoDetect st1 method info.UseBearer
            ⟨sr.1, reqs ++ [sr.2], true, none⟩

/-! ## Definitions: Sender, `SendBatch` (part_000, lines 59-152)

`SendBatch` is modelled up to its local, pre-network phase: the
empty-batch rejection, the single timestamp sample
(`now := time.Now().Unix()`, the `now` parameter here), the in-place
clock fill, and whether a TCP dial is attempted.  The slice argument is
passed by reference in Go, so the filled list is also the caller's
slice after return. -/

/-- `type SenderData struct` (part_000, lines 15-20); `Clock` is the
int64 unix timestamp, 0 meaning "use current time". -/
structure SenderData where
  Host : String
  Key : String
  Value : String
  Clock : Int
deriving Repr, DecidableEq, Inhabited

/-- The clock-filling loop (part_000, lines 71-76): every item whose
`Clock` is 0 gets the once-sampled `now`; other items are untouched. -/
def fillClocks (now : Int) (data : List SenderData) : List SenderData :=
  data.map (fun d => if d.Clock = 0 then { d with Clock := now } else d)

/-- `func (s *Sender) SendBatch(data []SenderData)` (part_000, lines
65-152) up to the network: the empty batch returns the
`"no data to send"` error at once; otherwise the clocks are filled and
the JSON array serialized in batch order — the first component is the
payload's item sequence.  The second component counts TCP dial
attempts: the code dials at most once and never retries (every failure
after the dial returns immediately). -/
def SendBatch (now : Int) (data : List SenderData) :
    Except String (List SenderData) × Nat :=
  if data.length = 0 then (.error "no data to send", 0)
  else (.ok (fillClocks now data), 1)

/-- `func (s *Sender) Send(data SenderData)` (part_000, lines 60-62):
a one-element `SendBatch`. -/
def Send (now : Int) (d : SenderData) : Except String (List SenderData) × Nat :=
  SendBatch now [d]

/-- The caller's slice after `SendBatch` returns: the loop writes
through the shared backing array, so for a non-empty batch the caller
sees the filled clocks. -/
def sendBatchCallerSlice (now : Int) (data : List SenderData) : List SenderData :=
  if data.length = 0 then data else fillClocks now data

/-! ## Definitions: Get agent client (get_test.go part, `GetValue` at
lines 142-190 and `GetValues` at lines 194-212) -/

/-- `strings.HasPrefix` on character lists. -/
def hasPrefixL : List Char → List Char → Bool
  | _, [] => true
  | [], _ :: _ => false
  | c :: cs, p :: ps => c == p && hasPrefixL cs ps

/-- The `"ZBX_NOTSUPPORTED"` sentinel (line 182). -/
def zbxNotSupported : List Char :=
  ['Z', 'B', 'X', '_', 'N', 'O', 'T', 'S', 'U', 'P', 'P', 'O', 'R', 'T', 'E', 'D']

/-- The `"ZBX_ERROR"` sentinel (line 185). -/
def zbxErrorSentinel : List Char := ['Z', 'B', 'X', '_', 'E', 'R', 'R', 'O', 'R']

/-- `strings.TrimRight(response, "\n\r")` (line 177): strip every
trailing `\n` or `\r`. -/
def trimResponse (s : String) : String :=
  ⟨(s.data.reverse.dropWhile (fun c => c = '\n' ∨ c = '\x0d')).reverse⟩

/-- The response classification of `GetValue` (lines 177-189): after
trimming, a `ZBX_NOTSUPPORTED` prefix is the "key not supported" error
carrying the key, a `ZBX_ERROR` prefix is the "agent error" carrying
the response, anything else is a valid value. -/
def classifyResponse (key rawLine : String) : Except String String :=
  let response := trimResponse rawLine
  if hasPrefixL response.data zbxNotSupported then
    .error ("key not supported: " ++ key)
  else if hasPrefixL response.data zbxErrorSentinel then
    .error ("agent error: " ++ response)
  else
    .ok response

/-- `func (g *Get) GetValue(key string)` (lines 142-190): empty-key
rejection, then the network exchange (abstracted as the `net` oracle
giving the raw line read or a transport failure), then classification. -/
def GetValue (net : Except String String) (key : String) :
    Except String String :=
  if key = "" then .error "key cannot be empty"
  else
    match net with
    | .error e => .error e
    | .ok rawLine => classifyResponse key rawLine

/-- `result[key] = value` on an association list (the model of Go's
`map[string]string`: overwrite on insert). -/
def mapInsert (k v : String) : List (String × String) → List (String × String)
  | [] => [(k, v)]
  | (k', v') :: rest =>
      if k' = k then (k, v) :: rest else (k', v') :: mapInsert k v rest

/-- One iteration of the `for _, key := range keys` loop (lines
198-205): a success is stored in the result map, a failure appends
`"<key>: <err>"` to the error descriptions.  The per-key `GetValue`
outcome is the `agent` oracle. -/
def GetValuesStep (agent : String → Except String String)
    (acc : List (String × String) × List String) (key : String) :
    List (String × String) × List String :=
  match agent key with
  | .ok v => (mapInsert key v acc.1, acc.2)
  | .error e => (acc.1, acc.2 ++ [key ++ ": " ++ e])

/-- The failure description `fmt.Sprintf("%s: %v", key, err)` for a
failing key, `none` for a succeeding one. -/
def failMsg (agent : String → Except String String) (key : String) :
    Option String :=
  match agent key with
  | .ok _ => none
  | .error e => some (key ++ ": " ++ e)

/-- `func (g *Get) GetValues(keys []string)` (lines 194-212): fold the
loop over the keys, then return the combined
`"some keys failed: <joined>"` error iff any key failed. -/
def GetValues (agent : String → Except String String) (keys : List String) :
    List (String × String) × Option String :=
  let acc := keys.foldl (GetValuesStep agent) ([], [])
  if 0 < acc.2.length then
    (acc.1, some ("some keys failed: " ++ String.intercalate "; " acc.2))
  else
    (acc.1, none)

/-- A concrete agent used by the C6 witness: `k1` succeeds, everything
else fails. -/
def agentEx : String → Except String String :=
  fun k => if k = "k1" then .ok "v1" else .error "boom"

/-! ## Theorems -/

example : BuildPacket [] = [0x5A, 0x42, 0x58, 0x44, 0x01, 0, 0, 0, 0, 0, 0, 0, 0] := by decide

example : decodeUint64LE (putUint64LE 300) = 300 := by decide

example : parseVersion "7.4.0" =
    .ok ⟨"7.4.0", 7, 4, 0, true, true⟩ := by rfl

example : zbxNotSupported = "ZBX_NOTSUPPORTED".data := by rfl

example : zbxErrorSentinel = "ZBX_ERROR".data := by rfl

theorem decodeUint64LE_putUint64LE (n : Nat) (h : n < 2 ^ 64) :
    decodeUint64LE (putUint64LE n) = n := by
  simp only [putUint64LE, decodeUint64LE]
  omega

/-- **C1.** `BuildPacket(payload)` is a pure function returning exactly
`5 + 8 + len(payload)` bytes: the first 5 bytes are `ZBXD` followed by
`0x01`, bytes at offsets 5 through 12 are the little-endian 64-bit
encoding of `len(payload)`, and the rest is the payload unchanged.
(The hypothesis `payload.length < 2 ^ 64` is the Go slice-length bound.) -/
theorem BuildPacket_spec (payload : List Nat) (h : payload.length < 2 ^ 64) :
    (BuildPacket payload).length = 5 + 8 + payload.length ∧
    (BuildPacket payload).take 5 = [0x5A, 0x42, 0x58, 0x44, 0x01] ∧
    ((BuildPacket payload).drop 5).take 8 = putUint64LE payload.length ∧
    decodeUint64LE (((BuildPacket payload).drop 5).take 8) = payload.length ∧
    (BuildPacket payload).drop 13 = payload := by
  have h3 : ((BuildPacket payload).drop 5).take 8 = putUint64LE payload.length := by
    simp [BuildPacket, zbxHeader, putUint64LE]
  refine ⟨?_, ?_, h3, ?_, ?_⟩
  · simp [BuildPacket, zbxHeader, putUint64LE]; omega
  · simp [BuildPacket, zbxHeader, putUint64LE]
  · rw [h3]; exact decodeUint64LE_putUint64LE payload.length h
  · simp [BuildPacket, zbxHeader, putUint64LE]

/-- Witness for C1 at a concrete payload. -/
theorem BuildPacket_spec_witness :
    (BuildPacket [7, 8, 9]).length = 5 + 8 + 3 ∧
    (BuildPacket [7, 8, 9]).drop 13 = [7, 8, 9] := by
  have h := BuildPacket_spec [7, 8, 9] (by decide)
  exact ⟨h.1, h.2.2.2.2⟩

/-- **C2.** Version parsing: fewer than two dotted components is a format
error; on success the components are the parsed major/minor/patch with
patch defaulting to 0 when absent, and the cached flags satisfy
`use_bearer_header = major > 7 ∨ (major = 7 ∧ minor ≥ 2)` and
`use_username_field = major > 6 ∨ (major = 6 ∧ minor ≥ 4)`; in
particular `"7.4.0"`, `"6.0.5"` and `"6.4"` parse as the claim states,
and `"7"` fails with a format error. -/
theorem Version_parse_spec :
    (∀ v : String, (goSplit '.' v.data).length < 2 →
        parseVersion v = .error ("invalid version format: " ++ v)) ∧
    (∀ (v : String) (info : VersionInfo), parseVersion v = .ok info →
        2 ≤ (goSplit '.' v.data).length ∧
        info.Major = goParseInt64 ((goSplit '.' v.data).headD []) ∧
        info.Minor = goParseInt64 ((goSplit '.' v.data).getD 1 []) ∧
        info.Patch = (if 3 ≤ (goSplit '.' v.data).length then
            goParseInt64 ((goSplit '.' v.data).getD 2 []) else 0) ∧
        (info.UseBearer = true ↔
            (7 < info.Major ∨ (info.Major = 7 ∧ 2 ≤ info.Minor))) ∧
        (info.UseUsername = true ↔
            (6 < info.Major ∨ (info.Major = 6 ∧ 4 ≤ info.Minor)))) ∧
    parseVersion "7.4.0" = .ok ⟨"7.4.0", 7, 4, 0, true, true⟩ ∧
    (∃ i, parseVersion "6.0.5" = .ok i ∧
        i.UseBearer = false ∧ i.UseUsername = false) ∧
    (∃ i, parseVersion "6.4" = .ok i ∧ i.Patch = 0) ∧
    (∃ e, parseVersion "7" = .error e) := by
  refine ⟨?_, ?_, by rfl, ⟨⟨"6.0.5", 6, 0, 5, false, false⟩, by exact ⟨rfl, rfl, rfl⟩⟩,
    ⟨⟨"6.4", 6, 4, 0, false, true⟩, by exact ⟨rfl, rfl⟩⟩,
    ⟨"invalid version format: " ++ "7", by rfl⟩⟩
  · intro v h
    rcases hs : goSplit '.' v.data with _ | ⟨a, _ | ⟨b, rest⟩⟩
    · simp [parseVersion, hs]
    · simp [parseVersion, hs]
    · rw [hs] at h; simp at h; omega
  · intro v info h
    rcases hs : goSplit '.' v.data with _ | ⟨a, _ | ⟨b, rest⟩⟩
    · simp [parseVersion, hs] at h
    · simp [parseVersion, hs] at h
    · rw [parseVersion, hs] at h
      simp only [Except.ok.injEq] at h
      subst h
      refine ⟨by simp, by simp, by simp, ?_, by simp [decide_eq_true_iff],
        by simp [decide_eq_true_iff]⟩
      rcases rest with _ | ⟨c, rest⟩
      · simp
      · simp

/-- Witness for C2: the error branch applied at the one-component string `"7"`. -/
theorem Version_parse_spec_witness :
    parseVersion "7" = .error ("invalid version format: " ++ "7") :=
  Version_parse_spec.1 "7" (by decide)

/-- **C4.** `CallWithError` returns `response.Error` as its error exactly
when `Call` returned no transport error and `response.Error` is non-nil;
the error renders as `"<code> (<message>): <data>"`; and `Call` itself
never surfaces a populated `response.Error` as its error result. -/
theorem CallWithError_spec :
    (∀ (t : Except String Response) (e : RpcError),
        (CallWithError t).2 = some (CallErr.api e) ↔
          (Call t).2 = none ∧ ((Call t).1).Error = some e) ∧
    (∀ r : Response, Call (Except.ok r) = (r, none)) ∧
    (∀ e : RpcError, e.render =
        toString e.Code ++ " (" ++ e.Message ++ "): " ++ e.Data) ∧
    RpcError.render ⟨-32602, "Invalid params", "boom"⟩ =
      "-32602 (Invalid params): boom" := by
  refine ⟨?_, fun r => rfl, fun e => rfl, rfl⟩
  intro t e
  cases t with
  | error m => simp [CallWithError, Call]
  | ok r =>
      cases hE : r.Error with
      | none => simp [CallWithError, Call, hE]
      | some e' => simp [CallWithError, Call, hE]

/-- `Version()` issues exactly the one `"APIInfo.version"` request,
whatever the server answers. -/
theorem VersionStep_sent (st : ApiState) (sr : Except CallErr String) :
    (VersionStep st sr).2.1 = [(callBytesNoDetect st "APIInfo.version" false).2] := by
  rcases sr with e | v
  · rfl
  · rcases hp : parseVersion v with m | info <;> simp [VersionStep, hp]

/-- **C3.** Every request whose method is `"APIInfo.version"` — whether
issued directly or as the detection sub-request — carries no auth token
in the envelope and no `Authorization: Bearer` header, and a direct
`"APIInfo.version"` call never runs version detection; for every other
method, an unset cached version descriptor makes `callBytes` run version
detection before the request is built. -/
theorem callBytes_version_auth_spec :
    (∀ (st : ApiState) (vs : Except CallErr String),
        (callBytes st "APIInfo.version" vs).detectionRan = false ∧
        ∀ req ∈ (callBytes st "APIInfo.version" vs).sent,
          req.envelopeAuth = "" ∧ req.bearerHeader = none) ∧
    (∀ (st : ApiState) (method : String) (vs : Except CallErr String),
        ∀ req ∈ (callBytes st method vs).sent, req.method = "APIInfo.version" →
          req.envelopeAuth = "" ∧ req.bearerHeader = none) ∧
    (∀ (st : ApiState) (method : String) (vs : Except CallErr String),
        method ≠ "APIInfo.version" → st.versionInfo = none →
        (callBytes st method vs).detectionRan = true) := by
  have hb : ∀ (useBearer : Bool) (apiAuth : String) (id : Int),
      (buildRequest "APIInfo.version" useBearer apiAuth id).envelopeAuth = "" ∧
      (buildRequest "APIInfo.version" useBearer apiAuth id).bearerHeader = none := by
    intro useBearer apiAuth id
    cases useBearer <;> simp [buildRequest]
  refine ⟨?_, ?_, ?_⟩
  · intro st vs
    refine ⟨by simp [callBytes], ?_⟩
    intro req hreq
    simp [callBytes, callBytesNoDetect] at hreq
    subst hreq
    exact hb false st.Auth (nextId st.id)
  · intro st method vs req hreq hm
    by_cases h : method = "APIInfo.version"
    · subst h
      simp [callBytes, callBytesNoDetect] at hreq
      subst hreq
      exact hb false st.Auth (nextId st.id)
    · rw [callBytes] at hreq
      rw [if_neg h] at hreq
      cases hvi : st.versionInfo with
      | some info =>
          rw [hvi] at hreq
          simp [callBytesNoDetect] at hreq
          subst hreq
          simp [buildRequest] at hm
          exact absurd hm h
      | none =>
          rw [hvi] at hreq
          have hsent := VersionStep_sent st vs
          rcases hV : VersionStep st vs with ⟨st1, reqs, r⟩
          rw [hV] at hsent hreq
          simp only [] at hsent
          cases r with
          | error e =>
              simp at hreq
              rw [hsent] at hreq
              simp [callBytesNoDetect] at hreq
              subst hreq
              exact hb false st.Auth (nextId st.id)
          | ok info =>
              simp at hreq
              rw [hsent] at hreq
              simp [callBytesNoDetect] at hreq
              rcases hreq with hreq | hreq
              · subst hreq
                exact hb false st.Auth (nextId st.id)
              · subst hreq
                simp [buildRequest] at hm
                exact absurd hm h
  · intro st method vs h1 h2
    rw [callBytes, if_neg h1, h2]
    rcases hV : VersionStep st vs with ⟨st1, reqs, r⟩
    cases r <;> simp

/-- Witness for C3 at a concrete state: a non-version method with the
cached descriptor unset triggers detection. -/
theorem callBytes_version_auth_spec_witness :
    (callBytes ⟨"tok", 0, none⟩ "host.get" (.ok "7.4.0")).detectionRan = true :=
  callBytes_version_auth_spec.2.2 ⟨"tok", 0, none⟩ "host.get" (.ok "7.4.0")
    (by decide) rfl

/-- After k calls the int32 counter holds k wrapped to int32. -/
theorem idOfCall_eq (k : Nat) : idOfCall k = int32wrap k := by
  induction k with
  | zero => simp [idOfCall, int32wrap]
  | succ k ih =>
      rw [idOfCall, ih, nextId, int32wrap, int32wrap, int32wrap]
      push_cast
      omega

/-- **C9 counterexample.** The id counter is a Go `int32` incremented by
`atomic.AddInt32`: at the call numbered 2^31 it wraps from 2147483647 to
-2147483648, so those two sequential calls do not produce strictly
increasing request ids. -/
theorem callBytes_id_counterexample :
    idOfCall 2147483647 = 2147483647 ∧
    idOfCall 2147483648 = -2147483648 ∧
    ¬ idOfCall 2147483647 < idOfCall 2147483648 := by
  refine ⟨?_, ?_, ?_⟩
  · rw [idOfCall_eq, int32wrap]; norm_num
  · rw [idOfCall_eq, int32wrap]; norm_num
  · rw [idOfCall_eq, idOfCall_eq, int32wrap, int32wrap]; norm_num

/-- **C9 (amended).** On one client instance the request id is a
per-instance counter incremented once per call starting from 1 (each
`callBytes` with the descriptor cached sends exactly one request, whose
id is `nextId` of the stored counter, and stores it back); sequential
calls always produce distinct ids, and strictly increasing ones as long
as the counter stays below the int32 maximum 2147483647. -/
theorem callBytes_id_spec (k : Nat) (h : k + 1 ≤ 2147483647) :
    idOfCall 0 = 0 ∧ idOfCall 1 = 1 ∧
    (∀ (st : ApiState) (info : VersionInfo) (method : String)
        (vs : Except CallErr String), st.versionInfo = some info →
        (callBytes st method vs).state.id = nextId st.id ∧
        (callBytes st method vs).sent.map BuiltRequest.id = [nextId st.id]) ∧
    (∀ j : Nat, idOfCall j ≠ idOfCall (j + 1)) ∧
    idOfCall k < idOfCall (k + 1) := by
  refine ⟨rfl, rfl, ?_, ?_, ?_⟩
  · intro st info method vs hvi
    by_cases hm : method = "APIInfo.version"
    · subst hm; simp [callBytes, callBytesNoDetect, buildRequest]
    · simp [callBytes, hm, hvi, callBytesNoDetect, buildRequest]
  · intro j
    rw [idOfCall_eq, idOfCall_eq, int32wrap, int32wrap]
    push_cast
    omega
  · rw [idOfCall_eq, idOfCall_eq, int32wrap, int32wrap]
    push_cast
    omega

/-- Witness for C9 (amended) at k = 1. -/
theorem callBytes_id_spec_witness :
    idOfCall 1 = 1 ∧ idOfCall 1 < idOfCall 2 := by
  have h := callBytes_id_spec 1 (by norm_num)
  exact ⟨h.2.1, h.2.2.2.2⟩

/-- Element i of the filled batch is element i of the input with only
the zero clock replaced. -/
theorem fillClocks_getD (now : Int) (data : List SenderData) (i : Nat)
    (hi : i < data.length) :
    (fillClocks now data).getD i default =
      (if (data.getD i default).Clock = 0 then
        { data.getD i default with Clock := now }
      else data.getD i default) := by
  simp [fillClocks, List.getD_eq_getElem?_getD, List.getElem?_eq_getElem hi]

/-- **C5.** For a non-empty batch, `SendBatch` samples one timestamp for
the whole call and assigns it to exactly the items whose clock is zero:
items with a non-zero clock are unchanged, any two auto-clocked items
carry the identical timestamp, and the serialized output preserves the
batch's item order (same length, element i derived from input element i). -/
theorem SendBatch_clock_spec (now : Int) (data : List SenderData)
    (h : data ≠ []) :
    (SendBatch now data).1 = .ok (fillClocks now data) ∧
    (fillClocks now data).length = data.length ∧
    (∀ i, i < data.length →
      ((data.getD i default).Clock = 0 →
          ((fillClocks now data).getD i default).Clock = now) ∧
      ((data.getD i default).Clock ≠ 0 →
          (fillClocks now data).getD i default = data.getD i default)) ∧
    (∀ i j, i < data.length → j < data.length →
      (data.getD i default).Clock = 0 → (data.getD j default).Clock = 0 →
      ((fillClocks now data).getD i default).Clock =
        ((fillClocks now data).getD j default).Clock) := by
  have hne : ¬ data.length = 0 := by simpa using h
  refine ⟨by simp [SendBatch, hne], by simp [fillClocks], ?_, ?_⟩
  · intro i hi
    constructor
    · intro h0
      rw [fillClocks_getD now data i hi, if_pos h0]
    · intro h0
      rw [fillClocks_getD now data i hi, if_neg h0]
  · intro i j hi hj h0i h0j
    rw [fillClocks_getD now data i hi, fillClocks_getD now data j hj,
      if_pos h0i, if_pos h0j]

/-- Witness for C5 on a concrete two-item batch. -/
theorem SendBatch_clock_spec_witness :
    ((fillClocks 1700000000 [⟨"h", "k1", "v1", 0⟩, ⟨"h", "k2", "v2", 5⟩]).getD 0
        default).Clock = 1700000000 ∧
    (fillClocks 1700000000 [⟨"h", "k1", "v1", 0⟩, ⟨"h", "k2", "v2", 5⟩]).getD 1
        default = ⟨"h", "k2", "v2", 5⟩ := by
  have h := SendBatch_clock_spec 1700000000
    [⟨"h", "k1", "v1", 0⟩, ⟨"h", "k2", "v2", 5⟩] (by simp)
  exact ⟨(h.2.2.1 0 (by norm_num)).1 rfl, (h.2.2.1 1 (by norm_num)).2 (by norm_num)⟩

/-- **C8.** `SendBatch` on an empty batch returns the error immediately —
no clock filling or serialization happens (no payload is produced) and
no TCP dial is attempted — and `Send`/`SendBatch` never dial more than
once (no retry on any failure: the whole batch fails atomically). -/
theorem SendBatch_empty_spec :
    (∀ now : Int, SendBatch now [] = (.error "no data to send", 0)) ∧
    (∀ now : Int, sendBatchCallerSlice now [] = []) ∧
    (∀ (now : Int) (data : List SenderData), (SendBatch now data).2 ≤ 1) ∧
    (∀ (now : Int) (d : SenderData), (Send now d).2 ≤ 1) := by
  refine ⟨fun now => rfl, fun now => rfl, ?_, ?_⟩
  · intro now data
    rw [SendBatch]
    split <;> simp
  · intro now d
    rw [Send, SendBatch]
    simp

/-- **C10.** `SendBatch` mutates the caller's slice in place: after a
call with a non-empty batch the caller's own slice has the sampled
timestamp written into every element whose clock was zero, while the
`Host`/`Key`/`Value` fields of every element, and the clocks of
elements with a non-zero clock, are unchanged. -/
theorem SendBatch_frame_spec (now : Int) (data : List SenderData)
    (h : data ≠ []) :
    sendBatchCallerSlice now data = fillClocks now data ∧
    (sendBatchCallerSlice now data).length = data.length ∧
    (∀ i, i < data.length →
      ((sendBatchCallerSlice now data).getD i default).Host =
          (data.getD i default).Host ∧
      ((sendBatchCallerSlice now data).getD i default).Key =
          (data.getD i default).Key ∧
      ((sendBatchCallerSlice now data).getD i default).Value =
          (data.getD i default).Value ∧
      ((sendBatchCallerSlice now data).getD i default).Clock =
          (if (data.getD i default).Clock = 0 then now
           else (data.getD i default).Clock)) := by
  have hne : ¬ data.length = 0 := by simpa using h
  have hc : sendBatchCallerSlice now data = fillClocks now data := by
    simp [sendBatchCallerSlice, hne]
  refine ⟨hc, by simp [hc, fillClocks], ?_⟩
  intro i hi
  rw [hc, fillClocks_getD now data i hi]
  by_cases h0 : (data.getD i default).Clock = 0
  · simp only [if_pos h0]
    simp
  · simp only [if_neg h0]
    simp

/-- Witness for C10 on a concrete two-item batch. -/
theorem SendBatch_frame_spec_witness :
    ((sendBatchCallerSlice 42 [⟨"a", "b", "c", 0⟩, ⟨"d", "e", "f", 7⟩]).getD 0
        default).Key = "b" ∧
    ((sendBatchCallerSlice 42 [⟨"a", "b", "c", 0⟩, ⟨"d", "e", "f", 7⟩]).getD 0
        default).Clock = 42 ∧
    ((sendBatchCallerSlice 42 [⟨"a", "b", "c", 0⟩, ⟨"d", "e", "f", 7⟩]).getD 1
        default).Clock = 7 := by
  have h := SendBatch_frame_spec 42 [⟨"a", "b", "c", 0⟩, ⟨"d", "e", "f", 7⟩]
    (by simp)
  refine ⟨(h.2.2 0 (by norm_num)).2.1, ?_, ?_⟩
  · have := (h.2.2 0 (by norm_num)).2.2.2
    simpa using this
  · have := (h.2.2 1 (by norm_num)).2.2.2
    simpa using this

/-- The two sentinels cannot both be prefixes of one response. -/
theorem sentinel_disjoint (s : List Char) :
    hasPrefixL s zbxErrorSentinel = true →
    hasPrefixL s zbxNotSupported = false := by
  rcases s with _ | ⟨a, _ | ⟨b, _ | ⟨c, _ | ⟨d, _ | ⟨e, rest⟩⟩⟩⟩⟩ <;>
    simp [hasPrefixL, zbxErrorSentinel, zbxNotSupported]
  intro h1 h2 h3 h4 h5 h6
  subst h5
  simp

/-- **C7.** For every agent response line (after stripping trailing `\r`
and `\n`): a `ZBX_NOTSUPPORTED` prefix yields an error whose text
includes the original key, a `ZBX_ERROR` prefix yields an error whose
text includes the (stripped) response, and any other content — the
empty string included — is returned as a valid value with no error. -/
theorem GetValue_sentinel_spec (key rawLine : String) :
    (hasPrefixL (trimResponse rawLine).data zbxNotSupported = true →
        classifyResponse key rawLine = .error ("key not supported: " ++ key) ∧
        ∃ pre post, "key not supported: " ++ key = pre ++ key ++ post) ∧
    (hasPrefixL (trimResponse rawLine).data zbxErrorSentinel = true →
        classifyResponse key rawLine =
          .error ("agent error: " ++ trimResponse rawLine) ∧
        ∃ pre post, "agent error: " ++ trimResponse rawLine =
          pre ++ trimResponse rawLine ++ post) ∧
    (hasPrefixL (trimResponse rawLine).data zbxNotSupported = false →
      hasPrefixL (trimResponse rawLine).data zbxErrorSentinel = false →
        classifyResponse key rawLine = .ok (trimResponse rawLine)) ∧
    classifyResponse "anykey" "\n" = .ok "" := by
  refine ⟨?_, ?_, ?_, by rfl⟩
  · intro h
    refine ⟨by simp [classifyResponse, h], "key not supported: ", "", ?_⟩
    simp
  · intro h
    have hn := sentinel_disjoint (trimResponse rawLine).data h
    refine ⟨by simp [classifyResponse, h, hn], "agent error: ", "", ?_⟩
    simp
  · intro h1 h2
    simp [classifyResponse, h1, h2]

/-- Witness for C7 at a concrete not-supported response. -/
theorem GetValue_sentinel_spec_witness :
    classifyResponse "system.foo" "ZBX_NOTSUPPORTED\n" =
      .error ("key not supported: " ++ "system.foo") :=
  ((GetValue_sentinel_spec "system.foo" "ZBX_NOTSUPPORTED\n").1 (by decide)).1

theorem lookup_mapInsert_self (k v : String) (m : List (String × String)) :
    List.lookup k (mapInsert k v m) = some v := by
  induction m with
  | nil => simp [mapInsert, List.lookup]
  | cons p rest ih =>
      rcases p with ⟨k', v'⟩
      by_cases h : k' = k
      · simp [mapInsert, h, List.lookup]
      · have hb : (k == k') = false := beq_eq_false_iff_ne.2 (Ne.symm h)
        simp [mapInsert, h, List.lookup, hb, ih]

theorem lookup_mapInsert_ne (k k' v : String) (m : List (String × String))
    (h : k ≠ k') :
    List.lookup k (mapInsert k' v m) = List.lookup k m := by
  have hb : (k == k') = false := beq_eq_false_iff_ne.2 h
  induction m with
  | nil => simp [mapInsert, List.lookup, hb]
  | cons p rest ih =>
      rcases p with ⟨k₀, v₀⟩
      by_cases h0 : k₀ = k'
      · subst h0
        simp [mapInsert, List.lookup, hb]
      · by_cases h1 : k = k₀
        · subst h1
          simp [mapInsert, h0, List.lookup]
        · have hb1 : (k == k₀) = false := beq_eq_false_iff_ne.2 h1
          simp [mapInsert, h0, List.lookup, hb1, ih]

/-- Keys the loop never inserts keep their lookup through the fold. -/
theorem GetValues_fold_notmem (agent : String → Except String String)
    (keys : List String) (k : String) :
    ∀ acc : List (String × String) × List String, k ∉ keys →
      List.lookup k (keys.foldl (GetValuesStep agent) acc).1 =
        List.lookup k acc.1 := by
  induction keys with
  | nil => intro acc _; rfl
  | cons key rest ih =>
      intro acc hk
      have hne : k ≠ key := fun h => hk (h ▸ List.mem_cons_self key rest)
      have hrest : k ∉ rest := fun h => hk (List.mem_cons_of_mem key h)
      rw [List.foldl_cons, ih _ hrest]
      rw [GetValuesStep.eq_def]
      rcases agent key with e | v
      · rfl
      · simpa using lookup_mapInsert_ne k key v acc.1 hne

/-- A key whose `GetValue` fails is never inserted by the fold. -/
theorem GetValues_fold_err (agent : String → Except String String)
    (keys : List String) (k : String) (e : String)
    (he : agent k = .error e) :
    ∀ acc : List (String × String) × List String,
      List.lookup k (keys.foldl (GetValuesStep agent) acc).1 =
        List.lookup k acc.1 := by
  induction keys with
  | nil => intro acc; rfl
  | cons key rest ih =>
      intro acc
      rw [List.foldl_cons, ih]
      by_cases hk : k = key
      · subst hk
        rw [GetValuesStep.eq_def, he]
      · rw [GetValuesStep.eq_def]
        rcases agent key with e' | v
        · rfl
        · simpa using lookup_mapInsert_ne k key v acc.1 hk

/-- A key whose `GetValue` succeeds ends up in the map with its value. -/
theorem GetValues_fold_ok (agent : String → Except String String)
    (keys : List String) (k : String) (v : String)
    (hv : agent k = .ok v) :
    ∀ acc : List (String × String) × List String, k ∈ keys →
      List.lookup k (keys.foldl (GetValuesStep agent) acc).1 = some v := by
  induction keys with
  | nil => intro acc h; exact absurd h (List.not_mem_nil k)
  | cons key rest ih =>
      intro acc hk
      rw [List.foldl_cons]
      by_cases hmem : k ∈ rest
      · exact ih _ hmem
      · have hkey : k = key := by
          rcases List.mem_cons.1 hk with h | h
          · exact h
          · exact absurd h hmem
        subst hkey
        rw [GetValues_fold_notmem agent rest k _ hmem]
        rw [GetValuesStep.eq_def, hv]
        simpa using lookup_mapInsert_self k v acc.1

/-- The fold accumulates exactly the failure descriptions, in key order. -/
theorem GetValues_fold_errs (agent : String → Except String String)
    (keys : List String) :
    ∀ acc : List (String × String) × List String,
      (keys.foldl (GetValuesStep agent) acc).2 =
        acc.2 ++ keys.filterMap (failMsg agent) := by
  induction keys with
  | nil => intro acc; simp
  | cons key rest ih =>
      intro acc
      rw [List.foldl_cons, ih, List.filterMap_cons]
      rw [GetValuesStep.eq_def, failMsg]
      rcases agent key with e | v
      · simp
      · simp

/-- `GetValues` in closed form: the fold's map, plus the combined error
iff any failure description accumulated. -/
theorem GetValues_eq (agent : String → Except String String)
    (keys : List String) :
    GetValues agent keys =
      (if 0 < (keys.filterMap (failMsg agent)).length then
        ((keys.foldl (GetValuesStep agent) ([], [])).1,
         some ("some keys failed: " ++
           String.intercalate "; " (keys.filterMap (failMsg agent))))
      else ((keys.foldl (GetValuesStep agent) ([], [])).1, none)) := by
  have herrs := GetValues_fold_errs agent keys ([], [])
  simp only [GetValues, herrs, List.nil_append]

/-- **C6.** `GetValues` issues `GetValue` per key sequentially and keeps
going past failures: the returned map holds exactly the keys whose
`GetValue` succeeded (with their values); the error is nil iff every
key succeeded; otherwise it is the `"; "`-join of the per-key failure
descriptions and mentions each failed key; and for `[k1, k2]` with `k1`
succeeding and `k2` failing the map holds only `k1` and the error
mentions `k2`. -/
theorem GetValues_spec (agent : String → Except String String)
    (keys : List String) :
    (∀ k w, List.lookup k (GetValues agent keys).1 = some w ↔
        (k ∈ keys ∧ agent k = .ok w)) ∧
    ((GetValues agent keys).2 = none ↔ ∀ k ∈ keys, ∃ v, agent k = .ok v) ∧
    (∀ k e, k ∈ keys → agent k = .error e →
        ∃ msgs, (GetValues agent keys).2 =
            some ("some keys failed: " ++ String.intercalate "; " msgs) ∧
          (k ++ ": " ++ e) ∈ msgs) := by
  have hmap : (GetValues agent keys).1 =
      (keys.foldl (GetValuesStep agent) ([], [])).1 := by
    rw [GetValues_eq]
    split <;> rfl
  refine ⟨?_, ?_, ?_⟩
  · intro k w
    rw [hmap]
    constructor
    · intro h
      rcases hv : agent k with e | v
      · rw [GetValues_fold_err agent keys k e hv] at h
        simp [List.lookup] at h
      · by_cases hk : k ∈ keys
        · rw [GetValues_fold_ok agent keys k v hv _ hk] at h
          injection h with h
          subst h
          exact ⟨hk, rfl⟩
        · rw [GetValues_fold_notmem agent keys k _ hk] at h
          simp [List.lookup] at h
    · rintro ⟨hk, hv⟩
      exact GetValues_fold_ok agent keys k w hv _ hk
  · rw [GetValues_eq]
    constructor
    · intro h
      intro k hk
      rcases hv : agent k with e | v
      · exfalso
        have hmem : (k ++ ": " ++ e) ∈ keys.filterMap (failMsg agent) :=
          List.mem_filterMap.2 ⟨k, hk, by rw [failMsg, hv]⟩
        have hpos : 0 < (keys.filterMap (failMsg agent)).length :=
          List.length_pos.2 (List.ne_nil_of_mem hmem)
        rw [if_pos hpos] at h
        simp at h
      · exact ⟨v, rfl⟩
    · intro h
      have hnil : keys.filterMap (failMsg agent) = [] := by
        rw [List.filterMap_eq_nil_iff]
        intro k hk
        rcases h k hk with ⟨v, hv⟩
        rw [failMsg, hv]
      rw [hnil]
      simp
  · intro k e hk he
    have hmem : (k ++ ": " ++ e) ∈ keys.filterMap (failMsg agent) :=
      List.mem_filterMap.2 ⟨k, hk, by rw [failMsg, he]⟩
    refine ⟨keys.filterMap (failMsg agent), ?_, hmem⟩
    rw [GetValues_eq]
    have hpos : 0 < (keys.filterMap (failMsg agent)).length :=
      List.length_pos.2 (List.ne_nil_of_mem hmem)
    rw [if_pos hpos]

/-- Witness for C6: `[k1, k2]` with `k1` succeeding and `k2` failing —
the map holds only `k1` and the error mentions `k2`. -/
theorem GetValues_spec_witness :
    List.lookup "k1" (GetValues agentEx ["k1", "k2"]).1 = some "v1" ∧
    List.lookup "k2" (GetValues agentEx ["k1", "k2"]).1 = none ∧
    ¬ (GetValues agentEx ["k1", "k2"]).2 = none ∧
    ∃ msgs, (GetValues agentEx ["k1", "k2"]).2 =
        some ("some keys failed: " ++ String.intercalate "; " msgs) ∧
      ("k2" ++ ": " ++ "boom") ∈ msgs := by
  have h := GetValues_spec agentEx ["k1", "k2"]
  refine ⟨(h.1 "k1" "v1").2 ⟨by simp, by rfl⟩, ?_, ?_, ?_⟩
  · rcases hl : List.lookup "k2" (GetValues agentEx ["k1", "k2"]).1 with _ | w
    · rfl
    · have := (h.1 "k2" w).1 hl
      rw [show agentEx "k2" = .error "boom" from rfl] at this
      exact absurd this.2 (by simp)
  · intro hnone
    have := (h.2.1.1 hnone) "k2" (by simp)
    rcases this with ⟨v, hv⟩
    rw [show agentEx "k2" = .error "boom" from rfl] at hv
    exact Except.noConfusion hv
  · exact h.2.2 "k2" "boom" (by simp) rfl
